import Mathlib

/-!
Verification of the IFL-VR matchmaking engine
(src/matchmaking-service/src/matchmaking-engine.ts, with the near-duplicate
monolith copy in src/IFL-VR/src/utils/Matchmaking.ts and the Elo update in
the User component).

Shallow embedding conventions:
* timestamps are natural-number milliseconds;
* MMR values held in queue entries are integers (the engine receives them as
  plain numbers and only adds/compares them);
* the real-valued Elo formula (Math.pow with a real exponent) is embedded
  over the real numbers, with JS Math.round(x) = floor(x + 1/2);
* JS Maps become association lists (a Map never holds a duplicate key, which
  appears below as a Nodup hypothesis on the stored keys);
* the playerMMR cache of the engine is not modelled: no claim reads it and
  the engine itself never reads it back (completeMatch recomputes from the
  lobby snapshots).
-/

/-- The six game modes of the engine (type GameMode in the source). -/
inductive GameMode where
  | m1v1
  | m2v2
  | m3v3
  | ffa
  | ranked
  | casual
deriving DecidableEq

/-- QueuedPlayer record of the engine.  `queuedAt` is a millisecond
timestamp; `rank` is the string computed by `_getRankFromMMR` on join. -/
structure QueuedPlayer where
  userId : String
  username : String
  mmr : ℤ
  queuedAt : ℕ
  gameMode : GameMode
  partyId : Option String
  rank : String
deriving DecidableEq

/-- MAX_QUEUE_TIME = 120000 ms. -/
def MAX_QUEUE_TIME : ℕ := 120000

/-- `_getMinPlayersForMode`. -/
def getMinPlayersForMode : GameMode → ℕ
  | .m1v1 => 2
  | .m2v2 => 4
  | .m3v3 => 6
  | .ffa => 4
  | .ranked => 2
  | .casual => 2

/-- `_getMaxPlayersForMode`. -/
def getMaxPlayersForMode : GameMode → ℕ
  | .m1v1 => 2
  | .m2v2 => 4
  | .m3v3 => 6
  | .ffa => 8
  | .ranked => 2
  | .casual => 4

/-- `_getRankFromMMR` on the integer MMR held in queue entries. -/
def getRankFromMMR (mmr : ℤ) : String :=
  if mmr < 800 then "Bronze"
  else if mmr < 1200 then "Silver"
  else if mmr < 1600 then "Gold"
  else if mmr < 2000 then "Platinum"
  else if mmr < 2400 then "Diamond"
  else if mmr < 2800 then "Master"
  else "Grandmaster"

/-- `_calculateMMRRange`: queueTimeSec = ms/1000, expansions =
floor(sec/10), range = 100 + expansions*50, capped at 500.  For a
non-negative millisecond wait the two nested floors are exactly nested
natural division. -/
def calculateMMRRange (queueTimeMs : ℕ) : ℕ :=
  min (100 + queueTimeMs / 1000 / 10 * 50) 500

/- ## Queue component (joinQueue / leaveQueue / _isPlayerInQueue)

The engine stores `queue : Map<GameMode, QueuedPlayer[]>`, initialised with
the six modes.  A JS Map with its per-key arrays becomes an association
list of (mode, entries). -/

/-- The per-mode queues of the engine. -/
def Queues : Type := List (GameMode × List QueuedPlayer)

/-- Constructor loop: the six modes, each with an empty queue. -/
def initQueues : Queues :=
  [(GameMode.m1v1, []), (GameMode.m2v2, []), (GameMode.m3v3, []),
   (GameMode.ffa, []), (GameMode.ranked, []), (GameMode.casual, [])]

/-- `_isPlayerInQueue`: scans every mode queue for the userId. -/
def isPlayerInQueue (qs : Queues) (userId : String) : Bool :=
  qs.any (fun mq => mq.2.any (fun p => p.userId == userId))

/-- Parameters of `joinQueue`. -/
structure JoinParams where
  userId : String
  username : String
  mmr : ℤ
  gameMode : GameMode
  partyId : Option String
deriving DecidableEq

/-- Return value of `joinQueue`: { success, message? }. -/
structure JoinResult where
  success : Bool
  message : Option String
deriving DecidableEq

/-- The QueuedPlayer record built inside `joinQueue`. -/
def mkQueuedPlayer (pr : JoinParams) (now : ℕ) : QueuedPlayer :=
  { userId := pr.userId
    username := pr.username
    mmr := pr.mmr
    queuedAt := now
    gameMode := pr.gameMode
    partyId := pr.partyId
    rank := getRankFromMMR pr.mmr }

/-- `this.queue.get(gameMode)` followed by `modeQueue.push(...)`: append the
entry to the queue stored under the mode key (a Map holds each key once). -/
def pushToMode : Queues → GameMode → QueuedPlayer → Queues
  | [], _, _ => []
  | (m, ps) :: rest, mode, p =>
    if m == mode then (m, ps ++ [p]) :: rest
    else (m, ps) :: pushToMode rest mode p

/-- Whether `this.queue.get(gameMode)` yields an array. -/
def hasMode (qs : Queues) (mode : GameMode) : Bool :=
  qs.any (fun mq => mq.1 == mode)

/-- `joinQueue`: reject when already queued anywhere, push otherwise;
an unknown mode key is rejected as invalid. -/
def joinQueue (qs : Queues) (pr : JoinParams) (now : ℕ) : JoinResult × Queues :=
  if isPlayerInQueue qs pr.userId then
    ({ success := false, message := some "Already in queue" }, qs)
  else if hasMode qs pr.gameMode then
    ({ success := true, message := none }, pushToMode qs pr.gameMode (mkQueuedPlayer pr now))
  else
    ({ success := false, message := some "Invalid game mode" }, qs)

/-- `leaveQueue`: walk the mode queues in order and splice out the first
entry whose userId matches; report whether one was removed. -/
def leaveQueueAux : Queues → String → Bool × Queues
  | [], _ => (false, [])
  | (m, ps) :: rest, userId =>
    if ps.any (fun p => p.userId == userId) then
      (true, (m, ps.eraseP (fun p => p.userId == userId)) :: rest)
    else
      let r := leaveQueueAux rest userId
      (r.1, (m, ps) :: r.2)

/-- `leaveQueue(userId)`. -/
def leaveQueue (qs : Queues) (userId : String) : Bool × Queues :=
  leaveQueueAux qs userId

/-- One external queue operation (the operations whose interleavings claim
C5 quantifies over). -/
inductive QueueOp where
  | join (pr : JoinParams) (now : ℕ)
  | leave (userId : String)

/-- Apply one operation to the queue state. -/
def applyOp (qs : Queues) : QueueOp → Queues
  | .join pr now => (joinQueue qs pr now).2
  | .leave userId => (leaveQueue qs userId).2

/-- Run a whole interleaving of join/leave calls. -/
def runOps (qs : Queues) (ops : List QueueOp) : Queues :=
  ops.foldl applyOp qs

/-- All userIds across every mode queue (the multiset the uniqueness
invariant speaks about). -/
def allUserIds (qs : Queues) : List String :=
  (qs.map (fun mq => mq.2.map (fun p => p.userId))).flatten

/- ## Matcher component (_tick / _processQueue / _findCompatiblePlayers)

`_processQueue` sorts a copy of the live queue by MMR and iterates over
that copy with an index, while match formation and wait-time eviction
splice players out of the live queue only.  The copy is never updated, so
the recursion below carries the remaining sorted copy and the live queue
separately, exactly as the source does. -/

/-- A lobby as formed by `_createMatch` during one tick.  `window` records
the MMR range the anchor was matched under (the `mmrRange` argument in the
source); lobbyId/averageMMR/createdAt/status are irrelevant to the queue
claims and live in the LobbyStore model below. -/
structure FormedLobby where
  players : List QueuedPlayer
  window : ℕ
deriving DecidableEq

/-- `players.findIndex(qp => qp.userId === p.userId)` + `splice(idx, 1)`:
remove the first entry with the given userId, if any. -/
def removeFirstById (ps : List QueuedPlayer) (userId : String) : List QueuedPlayer :=
  ps.eraseP (fun p => p.userId == userId)

/-- `_findCompatiblePlayers(anchor, candidates, mmrRange, maxCount)`:
take candidates in order while fewer than maxCount are collected, skipping
those outside the MMR range and those in a different declared party. -/
def findCompatiblePlayers (anchor : QueuedPlayer) :
    List QueuedPlayer → ℤ → ℕ → List QueuedPlayer
  | _, _, 0 => []
  | [], _, _ + 1 => []
  | c :: cs, mmrRange, k + 1 =>
    if |anchor.mmr - c.mmr| > mmrRange then
      findCompatiblePlayers anchor cs mmrRange (k + 1)
    else if anchor.partyId.isSome && c.partyId.isSome && anchor.partyId ≠ c.partyId then
      findCompatiblePlayers anchor cs mmrRange (k + 1)
    else
      c :: findCompatiblePlayers anchor cs mmrRange k

/-- The for-loop of `_processQueue`.  First list: the remaining suffix of
the sorted copy (`sortedPlayers[i..]`, whose tail is the candidate slice);
second list: the live queue.  Returns the live queue after the loop and the
lobbies formed, in formation order. -/
def processLoop (maxPlayers now : ℕ) :
    List QueuedPlayer → List QueuedPlayer → List QueuedPlayer × List FormedLobby
  | [], queue => (queue, [])
  | anchor :: rest, queue =>
    let queueTime := now - anchor.queuedAt
    if MAX_QUEUE_TIME < queueTime then
      processLoop maxPlayers now rest (removeFirstById queue anchor.userId)
    else
      let mmrRange := calculateMMRRange queueTime
      let compatible := findCompatiblePlayers anchor rest (mmrRange : ℤ) (maxPlayers - 1)
      if maxPlayers - 1 ≤ compatible.length then
        let matchPlayers := anchor :: compatible.take (maxPlayers - 1)
        let queue1 := matchPlayers.foldl (fun q p => removeFirstById q p.userId) queue
        let res := processLoop maxPlayers now rest queue1
        (res.1, { players := matchPlayers, window := mmrRange } :: res.2)
      else
        processLoop maxPlayers now rest queue

/-- `[...players].sort((a, b) => a.mmr - b.mmr)` (stable). -/
def sortByMMR (ps : List QueuedPlayer) : List QueuedPlayer :=
  ps.mergeSort (fun a b => a.mmr ≤ b.mmr)

/-- `_processQueue(gameMode, players)` for one mode. -/
def processQueue (mode : GameMode) (now : ℕ) (players : List QueuedPlayer) :
    List QueuedPlayer × List FormedLobby :=
  processLoop (getMaxPlayersForMode mode) now (sortByMMR players) players

/-- One `_tick` restricted to a single mode: queues below the mode minimum
are skipped before any per-player processing happens. -/
def tickMode (mode : GameMode) (now : ℕ) (players : List QueuedPlayer) :
    List QueuedPlayer × List FormedLobby :=
  if players.length < getMinPlayersForMode mode then (players, [])
  else processQueue mode now players

/- ## RatingModel (_calculateNewMMR and User.updateMMR)

The same Elo update appears in `MatchmakingEngine._calculateNewMMR` and in
`User.updateMMR`; both compute
  expectedScore = 1 / (1 + 10^((opponent - current) / 400))
  change = Math.round(32 * (actual - expectedScore))
  new = Math.max(0, current + change).
The formula is embedded over the reals; JS Math.round(x) agrees with
Mathlib round, both being floor(x + 1/2). -/

/-- Elo expected score of a rating `a` against a rating `b`. -/
noncomputable def expectedScore (a b : ℝ) : ℝ :=
  1 / (1 + (10 : ℝ) ^ ((b - a) / 400))

/-- The rounded MMR change (`mmrChange` in `_calculateNewMMR`). -/
noncomputable def mmrDelta (currentMMR opponentMMR : ℝ) (won : Bool) : ℤ :=
  round ((32 : ℝ) * ((if won then (1 : ℝ) else 0) - expectedScore currentMMR opponentMMR))

/-- `_calculateNewMMR` / the rating part of `User.updateMMR`:
Math.max(0, current + change). -/
noncomputable def calculateNewMMR (currentMMR opponentMMR : ℝ) (won : Bool) : ℝ :=
  max 0 (currentMMR + (mmrDelta currentMMR opponentMMR won : ℝ))

/-- A whole sequence of match results applied to one player's rating:
each element is (opponent rating, won?). -/
noncomputable def mmrAfterResults (start : ℝ) (results : List (ℝ × Bool)) : ℝ :=
  results.foldl (fun cur r => calculateNewMMR cur r.1 r.2) start

/- ## LobbyStore (completeMatch / _createMatch state)

`activeLobbies` and `matchHistory` are JS Maps keyed by lobbyId; a Map
never holds a duplicate key.  `completeMatch` throws
Error('Lobby not found') on an unknown id, marks the lobby completed,
computes one MMRUpdate per result entry whose user is a member, moves the
lobby into history and deletes it from the active map. -/

/-- Lobby status strings of the source. -/
inductive LobbyStatus where
  | waiting
  | ready
  | inProgress
  | completed
deriving DecidableEq

/-- The MatchLobby record (lobbyId is the association-list key). -/
structure EngineLobby where
  gameMode : GameMode
  players : List QueuedPlayer
  averageMMR : ℤ
  createdAt : ℕ
  status : LobbyStatus
  maxPlayers : ℕ

/-- One entry of the `results` array passed to `completeMatch` (the engine
reads only `user_id` and `won`; goals/assists ride along untouched). -/
structure MatchResult where
  user_id : String
  won : Bool
  goals : ℕ
  assists : ℕ
deriving DecidableEq

/-- The MMRUpdate record returned by `completeMatch`. -/
structure MMRUpdate where
  userId : String
  oldMMR : ℝ
  newMMR : ℝ
  mmrChange : ℝ
  newRank : String

/-- `_getRankFromMMR` applied to the real-valued updated rating inside
`completeMatch` (same thresholds as `getRankFromMMR`, at the numeric type
this call site uses). -/
noncomputable def rankFromRating (mmr : ℝ) : String :=
  if mmr < 800 then "Bronze"
  else if mmr < 1200 then "Silver"
  else if mmr < 1600 then "Gold"
  else if mmr < 2000 then "Platinum"
  else if mmr < 2400 then "Diamond"
  else if mmr < 2800 then "Master"
  else "Grandmaster"

/-- `lobby.players.reduce((sum, p) => sum + p.mmr, 0)`. -/
def sumMMR (ps : List QueuedPlayer) : ℤ :=
  ps.foldl (fun s p => s + p.mmr) 0

/-- Body of the `results.forEach` in `completeMatch`: find the member with
the result's user_id; if absent produce nothing, otherwise the MMRUpdate
computed purely from the lobby's join-time snapshots and this result's
`won` flag.  `totalMMR` is the precomputed sum over the lobby members. -/
noncomputable def memberUpdate (lobby : EngineLobby) (totalMMR : ℤ) (r : MatchResult) :
    Option MMRUpdate :=
  match lobby.players.find? (fun p => p.userId == r.user_id) with
  | none => none
  | some player =>
    let opponentMMR : ℝ := ((totalMMR : ℝ) - (player.mmr : ℝ)) / ((lobby.players.length : ℝ) - 1)
    let oldMMR : ℝ := (player.mmr : ℝ)
    let newMMR : ℝ := calculateNewMMR oldMMR opponentMMR r.won
    some { userId := player.userId
           oldMMR := oldMMR
           newMMR := newMMR
           mmrChange := newMMR - oldMMR
           newRank := rankFromRating newMMR }

/-- The list of MMRUpdates pushed by the `results.forEach` loop. -/
noncomputable def computeMMRUpdates (lobby : EngineLobby) (results : List MatchResult) :
    List MMRUpdate :=
  results.filterMap (memberUpdate lobby (sumMMR lobby.players))

/-- The two lobby maps of the engine. -/
structure LobbyStore where
  activeLobbies : List (String × EngineLobby)
  matchHistory : List (String × EngineLobby)

/-- `completeMatch(lobbyId, results)`: throws 'Lobby not found' when the id
is not an active lobby; otherwise sets status to completed, computes the
updates from the stored snapshots, moves the lobby to history and removes
it from the active map (Map.set replaces any entry under the same key). -/
noncomputable def completeMatch (st : LobbyStore) (lobbyId : String)
    (results : List MatchResult) : Except String (List MMRUpdate × LobbyStore) :=
  match List.lookup lobbyId st.activeLobbies with
  | none => .error "Lobby not found"
  | some lobby =>
    let lobby1 := { lobby with status := LobbyStatus.completed }
    .ok (computeMMRUpdates lobby1 results,
         { activeLobbies := st.activeLobbies.eraseP (fun kv => kv.1 == lobbyId)
           matchHistory := (lobbyId, lobby1) :: st.matchHistory.eraseP (fun kv => kv.1 == lobbyId) })

/- ## Concrete inputs used by witnesses and counterexamples -/

/-- A 1v1 queue entry with no party, as `joinQueue` would build it. -/
def demoPlayer (uid uname : String) (mmr : ℤ) (queuedAt : ℕ) : QueuedPlayer :=
  { userId := uid
    username := uname
    mmr := mmr
    queuedAt := queuedAt
    gameMode := GameMode.m1v1
    partyId := none
    rank := getRankFromMMR mmr }

/-- Four equally rated 1v1 players queued at time 0. -/
def pA : QueuedPlayer := demoPlayer "A" "alice" 1000 0

def pB : QueuedPlayer := demoPlayer "B" "bob" 1000 0

def pC : QueuedPlayer := demoPlayer "C" "carol" 1000 0

def pD : QueuedPlayer := demoPlayer "D" "dave" 1000 0

/-- The 1v1 queue holding the four players, in join order. -/
def c1Queue : List QueuedPlayer := [pA, pB, pC, pD]

/-- A player who joined the 1v1 queue alone at time 0. -/
def pLone : QueuedPlayer := demoPlayer "solo" "sam" 1000 0

/-- Join parameters used to exercise the AlreadyQueued rejection. -/
def alicePr : JoinParams :=
  { userId := "A", username := "alice", mmr := 1000, gameMode := GameMode.m1v1, partyId := none }

/-- The queue state after alice joined once. -/
def demoQs : Queues := (joinQueue initQueues alicePr 0).2

/-- A waiting 1v1 lobby holding the two snapshots. -/
def demoLobby : EngineLobby :=
  { gameMode := GameMode.m1v1
    players := [pA, pB]
    averageMMR := 1000
    createdAt := 0
    status := LobbyStatus.waiting
    maxPlayers := 2 }

/-- The same lobby after `completeMatch` marked it completed. -/
def demoLobby1 : EngineLobby := { demoLobby with status := LobbyStatus.completed }

/-- Store holding the one active lobby under id L1. -/
def demoStore : LobbyStore := { activeLobbies := [("L1", demoLobby)], matchHistory := [] }

/-- Store state after the first completion of L1. -/
def demoStore1 : LobbyStore := { activeLobbies := [], matchHistory := [("L1", demoLobby1)] }

/-- Result entries: A won, B lost. -/
def demoResults : List MatchResult :=
  [{ user_id := "A", won := true, goals := 3, assists := 1 },
   { user_id := "B", won := false, goals := 1, assists := 0 }]

/-- Two-player 1v1 queue used to exercise lobby formation. -/
def wQueue : List QueuedPlayer := [pA, pB]

/- ## Theorems -/

lemma mmrAfterResults_nonneg :
    ∀ (results : List (ℝ × Bool)) (start : ℝ), 0 ≤ start → 0 ≤ mmrAfterResults start results := by
  intro results
  induction results with
  | nil => intro s hs; simpa [mmrAfterResults] using hs
  | cons r rs ih =>
    intro s hs
    have h0 : 0 ≤ calculateNewMMR s r.1 r.2 := le_max_left 0 _
    simpa [mmrAfterResults] using ih (calculateNewMMR s r.1 r.2) h0

/-- C7: the search window of `_calculateMMRRange` equals
min(100 + floor(waitSeconds/10)·50, 500) (with waitSeconds = ms/1000, i.e.
floor(ms/10000) expansions), is monotone non-decreasing in the wait time,
equals 100 at wait 0 and never exceeds 500. -/
theorem c7_mmr_range_spec (t1 t2 : ℕ) (h : t1 ≤ t2) :
    calculateMMRRange t1 = min (100 + t1 / 10000 * 50) 500 ∧
    calculateMMRRange t1 ≤ calculateMMRRange t2 ∧
    calculateMMRRange 0 = 100 ∧
    calculateMMRRange t2 ≤ 500 := by
  refine ⟨?_, ?_, rfl, min_le_right _ _⟩
  · unfold calculateMMRRange
    rw [Nat.div_div_eq_div_mul]
  · unfold calculateMMRRange
    exact min_le_min
      (Nat.add_le_add_left
        (Nat.mul_le_mul_right _ (Nat.div_le_div_right (Nat.div_le_div_right h))) _)
      le_rfl

/-- Witness for C7 at wait times 30 s and 1000 s. -/
theorem c7_witness :
    30000 ≤ 999999 ∧
    (calculateMMRRange 30000 = min (100 + 30000 / 10000 * 50) 500 ∧
     calculateMMRRange 30000 ≤ calculateMMRRange 999999 ∧
     calculateMMRRange 0 = 100 ∧
     calculateMMRRange 999999 ≤ 500) :=
  ⟨by decide, c7_mmr_range_spec 30000 999999 (by decide)⟩

/-- C8: for all real ratings a and b,
expectedScore(a,b) + expectedScore(b,a) = 1. -/
theorem c8_expectedScore_sum (a b : ℝ) :
    expectedScore a b + expectedScore b a = 1 := by
  unfold expectedScore
  have hd : (a - b) / 400 = -((b - a) / 400) := by ring
  rw [hd, Real.rpow_neg (by norm_num : (0:ℝ) ≤ 10)]
  have htpos : 0 < (10 : ℝ) ^ ((b - a) / 400) :=
    Real.rpow_pos_of_pos (by norm_num) _
  have h1 : 1 + (10 : ℝ) ^ ((b - a) / 400) ≠ 0 := by positivity
  have h2 : ((10 : ℝ) ^ ((b - a) / 400))⁻¹ + 1 ≠ 0 := by positivity
  field_simp
  ring

/-- C6: the rating update floors at 0 (`max 0 (current + delta)`), so from
any non-negative starting rating every rating produced along any sequence
of match results is non-negative — and indeed every single update output is
non-negative. -/
theorem c6_rating_never_negative (start : ℝ) (h : 0 ≤ start) (results : List (ℝ × Bool)) :
    (∀ cur opp : ℝ, ∀ won : Bool, 0 ≤ calculateNewMMR cur opp won) ∧
    0 ≤ mmrAfterResults start results :=
  ⟨fun _ _ _ => le_max_left 0 _, mmrAfterResults_nonneg results start h⟩

/-- Witness for C6: a player at 1000 losing to 1500 then beating 900. -/
theorem c6_witness :
    0 ≤ (1000 : ℝ) ∧
    ((∀ cur opp : ℝ, ∀ won : Bool, 0 ≤ calculateNewMMR cur opp won) ∧
     0 ≤ mmrAfterResults 1000 [((1500 : ℝ), false), ((900 : ℝ), true)]) :=
  ⟨by norm_num, c6_rating_never_negative 1000 (by norm_num) _⟩

lemma ten_rpow_3div2_gt31_lt32 :
    31 < (10 : ℝ) ^ ((3 : ℝ) / 2) ∧ (10 : ℝ) ^ ((3 : ℝ) / 2) < 32 := by
  have hsq : ((10 : ℝ) ^ ((3 : ℝ) / 2)) ^ (2 : ℕ) = 1000 := by
    rw [← Real.rpow_natCast ((10 : ℝ) ^ ((3 : ℝ) / 2)) 2,
      ← Real.rpow_mul (by norm_num : (0:ℝ) ≤ 10)]
    rw [show ((3 : ℝ) / 2 * (2 : ℕ) : ℝ) = ((3 : ℕ) : ℝ) by push_cast; ring,
      Real.rpow_natCast]
    norm_num
  have hpos : 0 < (10 : ℝ) ^ ((3 : ℝ) / 2) := Real.rpow_pos_of_pos (by norm_num) _
  constructor <;> nlinarith [hsq, hpos]

lemma round_elo_win (s : ℝ) (h1 : 61 / 3 < s) (h2 : s < 63) :
    round ((32 : ℝ) * (1 - 1 / (1 + s))) = 31 := by
  have hpos : (0 : ℝ) < 1 + s := by linarith
  have hlo : 1 / (1 + s) < 3 / 64 := by
    rw [div_lt_div_iff₀ hpos (by norm_num)]
    linarith
  have hhi : (1 : ℝ) / 64 < 1 / (1 + s) := by
    rw [div_lt_div_iff₀ (by norm_num) hpos]
    linarith
  rw [round_eq, Int.floor_eq_iff]
  constructor
  · push_cast
    linarith
  · push_cast
    linarith

lemma round_elo_loss (s : ℝ) (h1 : 61 / 3 < s) (h2 : s < 63) :
    round ((32 : ℝ) * (0 - (1 - 1 / (1 + s)))) = -31 := by
  have hpos : (0 : ℝ) < 1 + s := by linarith
  have hlo : 1 / (1 + s) < 3 / 64 := by
    rw [div_lt_div_iff₀ hpos (by norm_num)]
    linarith
  have hhi : (1 : ℝ) / 64 < 1 / (1 + s) := by
    rw [div_lt_div_iff₀ (by norm_num) hpos]
    linarith
  rw [round_eq, Int.floor_eq_iff]
  constructor
  · push_cast
    linarith
  · push_cast
    linarith

lemma expectedScore_1200_1800 :
    expectedScore 1200 1800 = 1 / (1 + (10 : ℝ) ^ ((3 : ℝ) / 2)) := by
  unfold expectedScore
  norm_num

lemma expectedScore_1800_1200 :
    expectedScore 1800 1200 = 1 - 1 / (1 + (10 : ℝ) ^ ((3 : ℝ) / 2)) := by
  unfold expectedScore
  rw [show ((1200 : ℝ) - 1800) / 400 = -((3 : ℝ) / 2) by norm_num,
    Real.rpow_neg (by norm_num : (0:ℝ) ≤ 10)]
  have hpos : 0 < (10 : ℝ) ^ ((3 : ℝ) / 2) := Real.rpow_pos_of_pos (by norm_num) _
  have h1 : 1 + (10 : ℝ) ^ ((3 : ℝ) / 2) ≠ 0 := by positivity
  field_simp
  ring

lemma calcNewMMR_1200_1800_win : calculateNewMMR 1200 1800 true = 1231 := by
  unfold calculateNewMMR mmrDelta
  rw [expectedScore_1200_1800]
  have hb := ten_rpow_3div2_gt31_lt32
  rw [show (if (true : Bool) then (1:ℝ) else 0) = 1 by norm_num]
  rw [round_elo_win ((10 : ℝ) ^ ((3 : ℝ) / 2)) (by linarith [hb.1]) (by linarith [hb.2])]
  norm_num

lemma calcNewMMR_1800_1200_loss : calculateNewMMR 1800 1200 false = 1769 := by
  unfold calculateNewMMR mmrDelta
  rw [expectedScore_1800_1200]
  have hb := ten_rpow_3div2_gt31_lt32
  rw [show (if (false : Bool) then (1:ℝ) else 0) = 0 by norm_num]
  rw [round_elo_loss ((10 : ℝ) ^ ((3 : ℝ) / 2)) (by linarith [hb.1]) (by linarith [hb.2])]
  norm_num

/-- C9 counterexample: a 1200 player beating an 1800 player does NOT end at
1227 — the expected score for a 600-point gap is 1/(1+10^1.5) ≈ 0.031, not
0.15, so the delta is 31, not 27. -/
theorem c9_counterexample : calculateNewMMR 1200 1800 true ≠ 1227 := by
  rw [calcNewMMR_1200_1800_win]
  norm_num

/-- C9 (amended): when a 1200 player beats an 1800 player the engine
computes delta = round(32·(1 − 1/(1+10^1.5))) = 31, giving 1231 for the
winner and 1769 for the loser. -/
theorem c9_underdog_win_ratings :
    calculateNewMMR 1200 1800 true = 1231 ∧ calculateNewMMR 1800 1200 false = 1769 :=
  ⟨calcNewMMR_1200_1800_win, calcNewMMR_1800_1200_loss⟩

lemma mem_allUserIds_iff (qs : Queues) (uid : String) :
    uid ∈ allUserIds qs ↔ isPlayerInQueue qs uid = true := by
  induction qs with
  | nil => simp [allUserIds, isPlayerInQueue]
  | cons mq rest ih =>
    simp only [allUserIds, isPlayerInQueue, List.map_cons, List.flatten_cons,
      List.any_cons, List.mem_append, Bool.or_eq_true, List.any_eq_true,
      List.mem_map] at *
    constructor
    · rintro (h | h)
      · obtain ⟨p, hp, hpe⟩ := h
        exact Or.inl ⟨p, hp, by simp [hpe]⟩
      · exact Or.inr (ih.mp h)
    · rintro (⟨p, hp, hpe⟩ | h)
      · exact Or.inl ⟨p, hp, by simpa using hpe⟩
      · exact Or.inr (ih.mpr h)

lemma allUserIds_cons (m : GameMode) (ps : List QueuedPlayer) (rest : Queues) :
    allUserIds ((m, ps) :: rest) = ps.map (fun p => p.userId) ++ allUserIds rest := rfl

lemma pushToMode_ids_perm (p : QueuedPlayer) (mode : GameMode) :
    ∀ qs : Queues, hasMode qs mode = true →
      (allUserIds (pushToMode qs mode p)).Perm (p.userId :: allUserIds qs) := by
  intro qs
  induction qs with
  | nil => intro hm; simp [hasMode] at hm
  | cons mq rest ih =>
    intro hm
    obtain ⟨m, ps⟩ := mq
    by_cases h : m = mode
    · subst h
      rw [show pushToMode ((m, ps) :: rest) m p = (m, ps ++ [p]) :: rest by
        simp [pushToMode]]
      rw [allUserIds_cons, allUserIds_cons]
      simp only [List.map_append, List.map_cons, List.map_nil, List.append_assoc,
        List.singleton_append]
      exact List.perm_middle
    · have hb : (m == mode) = false := by simp [h]
      rw [show pushToMode ((m, ps) :: rest) mode p = (m, ps) :: pushToMode rest mode p by
        simp [pushToMode, hb]]
      rw [allUserIds_cons, allUserIds_cons]
      have hm2 : hasMode rest mode = true := by simpa [hasMode, hb] using hm
      exact (List.Perm.append_left _ (ih hm2)).trans List.perm_middle

lemma leaveQueueAux_ids_sublist (uid : String) :
    ∀ qs : Queues, (allUserIds (leaveQueueAux qs uid).2).Sublist (allUserIds qs) := by
  intro qs
  induction qs with
  | nil => simp [leaveQueueAux]
  | cons mq rest ih =>
    obtain ⟨m, ps⟩ := mq
    by_cases h : ps.any (fun p => p.userId == uid) = true
    · rw [show (leaveQueueAux ((m, ps) :: rest) uid).2
          = (m, ps.eraseP (fun p => p.userId == uid)) :: rest by
        simp [leaveQueueAux, h]]
      rw [allUserIds_cons, allUserIds_cons]
      exact List.Sublist.append ((List.eraseP_sublist ps).map _) (List.Sublist.refl _)
    · rw [show (leaveQueueAux ((m, ps) :: rest) uid).2
          = (m, ps) :: (leaveQueueAux rest uid).2 by
        simp [leaveQueueAux, h]]
      rw [allUserIds_cons, allUserIds_cons]
      exact List.Sublist.append (List.Sublist.refl _) ih

lemma applyOp_nodup (qs : Queues) (op : QueueOp)
    (h : (allUserIds qs).Nodup) : (allUserIds (applyOp qs op)).Nodup := by
  cases op with
  | leave uid =>
    exact List.Nodup.sublist (leaveQueueAux_ids_sublist uid qs) h
  | join pr now =>
    simp only [applyOp, joinQueue]
    split_ifs with h1 h2
    · exact h
    · have hfresh : pr.userId ∉ allUserIds qs := by
        intro hmem
        rw [mem_allUserIds_iff] at hmem
        exact h1 hmem
      have hperm := pushToMode_ids_perm (mkQueuedPlayer pr now) pr.gameMode qs h2
      rw [show (mkQueuedPlayer pr now).userId = pr.userId from rfl] at hperm
      exact hperm.nodup_iff.mpr (List.nodup_cons.mpr ⟨hfresh, h⟩)
    · exact h

lemma runOps_nodup (ops : List QueueOp) :
    ∀ qs : Queues, (allUserIds qs).Nodup → (allUserIds (runOps qs ops)).Nodup := by
  induction ops with
  | nil => intro qs h; simpa [runOps] using h
  | cons op ops ih =>
    intro qs h
    simpa [runOps] using ih (applyOp qs op) (applyOp_nodup qs op h)

/-- C5: for every interleaving of joinQueue/leaveQueue calls starting from
the engine's initial state, the userIds across all six mode queues stay
duplicate-free (at most one entry per player anywhere), and joinQueue on a
player already queued in any mode fails with the AlreadyQueued message and
leaves every queue unchanged. -/
theorem c5_queue_uniqueness (ops : List QueueOp) :
    (allUserIds (runOps initQueues ops)).Nodup ∧
    ∀ (qs : Queues) (pr : JoinParams) (now : ℕ),
      isPlayerInQueue qs pr.userId = true →
      joinQueue qs pr now = ({ success := false, message := some "Already in queue" }, qs) := by
  constructor
  · exact runOps_nodup ops initQueues (by simp [allUserIds, initQueues])
  · intro qs pr now h
    simp [joinQueue, h]

/-- Witness for C5: alice joins once, a second join is rejected unchanged. -/
theorem c5_witness :
    isPlayerInQueue demoQs "A" = true ∧
    joinQueue demoQs alicePr 5 = ({ success := false, message := some "Already in queue" }, demoQs) :=
  ⟨by decide, (c5_queue_uniqueness []).2 demoQs alicePr 5 (by decide)⟩

lemma findCompatiblePlayers_sound (anchor : QueuedPlayer) :
    ∀ (cs : List QueuedPlayer) (r : ℤ) (k : ℕ) (c : QueuedPlayer),
      c ∈ findCompatiblePlayers anchor cs r k →
      c ∈ cs ∧ |anchor.mmr - c.mmr| ≤ r := by
  intro cs
  induction cs with
  | nil =>
    intro r k c hc
    cases k <;> simp [findCompatiblePlayers] at hc
  | cons c0 cs ih =>
    intro r k c hc
    cases k with
    | zero => simp [findCompatiblePlayers] at hc
    | succ k =>
      simp only [findCompatiblePlayers] at hc
      split_ifs at hc with h1 h2
      · obtain ⟨hmem, hr⟩ := ih r (k + 1) c hc
        exact ⟨List.mem_cons_of_mem _ hmem, hr⟩
      · obtain ⟨hmem, hr⟩ := ih r (k + 1) c hc
        exact ⟨List.mem_cons_of_mem _ hmem, hr⟩
      · rcases List.mem_cons.mp hc with h | h
        · exact ⟨h ▸ List.mem_cons_self _ _, h ▸ le_of_not_lt h1⟩
        · obtain ⟨hmem, hr⟩ := ih r k c h
          exact ⟨List.mem_cons_of_mem _ hmem, hr⟩

lemma findCompatiblePlayers_length (anchor : QueuedPlayer) :
    ∀ (cs : List QueuedPlayer) (r : ℤ) (k : ℕ),
      (findCompatiblePlayers anchor cs r k).length ≤ k := by
  intro cs
  induction cs with
  | nil =>
    intro r k
    cases k <;> simp [findCompatiblePlayers]
  | cons c0 cs ih =>
    intro r k
    cases k with
    | zero => simp [findCompatiblePlayers]
    | succ k =>
      simp only [findCompatiblePlayers]
      split_ifs with h1 h2
      · exact ih r (k + 1)
      · exact ih r (k + 1)
      · simpa [List.length_cons] using Nat.succ_le_succ (ih r k)

lemma foldl_removeFirst_sublist :
    ∀ (l : List QueuedPlayer) (q : List QueuedPlayer),
      (l.foldl (fun q p => removeFirstById q p.userId) q).Sublist q := by
  intro l
  induction l with
  | nil => intro q; simp
  | cons p l ih =>
    intro q
    simp only [List.foldl_cons]
    exact (ih _).trans (List.eraseP_sublist q)

lemma processLoop_queue_sublist (m now : ℕ) :
    ∀ (sorted q : List QueuedPlayer), ((processLoop m now sorted q).1).Sublist q := by
  intro sorted
  induction sorted with
  | nil => intro q; simp [processLoop]
  | cons a rest ih =>
    intro q
    simp only [processLoop]
    split_ifs with h1 h2
    · exact (ih _).trans (List.eraseP_sublist q)
    · exact (ih _).trans (foldl_removeFirst_sublist _ q)
    · exact ih q

lemma removeFirstById_not_mem (uid : String) :
    ∀ q : List QueuedPlayer, (q.map QueuedPlayer.userId).Nodup →
      ∀ p ∈ removeFirstById q uid, p.userId ≠ uid := by
  intro q
  induction q with
  | nil => simp [removeFirstById]
  | cons a q ih =>
    intro hnd p hp
    by_cases ha : a.userId = uid
    · rw [show removeFirstById (a :: q) uid = q by
        simp [removeFirstById, List.eraseP_cons_of_pos, ha]] at hp
      intro hpu
      have : a.userId ∈ q.map QueuedPlayer.userId :=
        List.mem_map.mpr ⟨p, hp, by rw [hpu, ha]⟩
      exact (List.nodup_cons.mp (by simpa using hnd)).1 this
    · rw [show removeFirstById (a :: q) uid = a :: removeFirstById q uid by
        simp [removeFirstById, List.eraseP_cons_of_neg, ha]] at hp
      rcases List.mem_cons.mp hp with h | h
      · exact h ▸ ha
      · exact ih (List.nodup_cons.mp (by simpa using hnd)).2 p h

lemma not_mem_of_sublist {uid : String} {q1 q2 : List QueuedPlayer}
    (hsub : q1.Sublist q2) (h : ∀ p ∈ q2, p.userId ≠ uid) :
    ∀ p ∈ q1, p.userId ≠ uid :=
  fun p hp => h p (hsub.subset hp)

lemma foldl_removeFirst_not_mem :
    ∀ (l q : List QueuedPlayer), (q.map QueuedPlayer.userId).Nodup →
      ∀ p ∈ l, ∀ p' ∈ l.foldl (fun q p => removeFirstById q p.userId) q,
        p'.userId ≠ p.userId := by
  intro l
  induction l with
  | nil => simp
  | cons a l ih =>
    intro q hnd p hp p' hp'
    simp only [List.foldl_cons] at hp'
    rcases List.mem_cons.mp hp with h | h
    · subst h
      have h1 : ∀ x ∈ removeFirstById q p.userId, x.userId ≠ p.userId :=
        removeFirstById_not_mem p.userId q hnd
      exact not_mem_of_sublist (foldl_removeFirst_sublist l _) h1 p' hp'
    · have hnd1 : ((removeFirstById q a.userId).map QueuedPlayer.userId).Nodup :=
        List.Nodup.sublist ((List.eraseP_sublist q).map _) hnd
      exact ih (removeFirstById q a.userId) hnd1 p h p' hp'

lemma processLoop_lobby_spec (m now : ℕ) (hm : 1 ≤ m) :
    ∀ (sorted q : List QueuedPlayer),
      List.Pairwise (fun a b => a.mmr ≤ b.mmr) sorted →
      (q.map QueuedPlayer.userId).Nodup →
      ∀ lob ∈ (processLoop m now sorted q).2,
        lob.players.length = m ∧
        (∀ p ∈ lob.players, ∀ p' ∈ lob.players, |p.mmr - p'.mmr| ≤ (lob.window : ℤ)) ∧
        (∀ p ∈ lob.players, ∀ p' ∈ (processLoop m now sorted q).1, p'.userId ≠ p.userId) := by
  intro sorted
  induction sorted with
  | nil => intro q _ _ lob hlob; simp [processLoop] at hlob
  | cons a rest ih =>
    intro q hpw hnd lob hlob
    have hale := (List.pairwise_cons.mp hpw).1
    have hpwt := (List.pairwise_cons.mp hpw).2
    simp only [processLoop] at hlob ⊢
    split_ifs at hlob ⊢ with h1 h2
    · exact ih (removeFirstById q a.userId) hpwt
        (List.Nodup.sublist ((List.eraseP_sublist q).map _) hnd) lob hlob
    · rcases List.mem_cons.mp hlob with rfl | hmem
      · have hwin0 : (0 : ℤ) ≤ (calculateMMRRange (now - a.queuedAt) : ℤ) := Int.ofNat_nonneg _
        have key : ∀ c ∈ List.take (m - 1)
            (findCompatiblePlayers a rest (calculateMMRRange (now - a.queuedAt) : ℤ) (m - 1)),
            a.mmr ≤ c.mmr ∧ c.mmr ≤ a.mmr + (calculateMMRRange (now - a.queuedAt) : ℤ) := by
          intro c hc
          have hc2 := List.take_subset _ _ hc
          obtain ⟨hcr, hcabs⟩ := findCompatiblePlayers_sound a rest _ _ c hc2
          refine ⟨hale c hcr, ?_⟩
          have := (abs_le.mp hcabs).1
          linarith
        refine ⟨?_, ?_, ?_⟩
        · have hlen := List.length_take (m - 1)
            (findCompatiblePlayers a rest (calculateMMRRange (now - a.queuedAt) : ℤ) (m - 1))
          simp only [List.length_cons, hlen, min_eq_left h2]
          omega
        · intro p hp p' hp'
          simp only at hp hp' ⊢
          rcases List.mem_cons.mp hp with rfl | hp <;>
            rcases List.mem_cons.mp hp' with rfl | hp'
          · simp only [sub_self, abs_zero]
            exact hwin0
          · have hk := key p' hp'
            exact abs_le.mpr ⟨by linarith [hk.1, hk.2], by linarith [hk.1, hk.2]⟩
          · have hk := key p hp
            exact abs_le.mpr ⟨by linarith [hk.1, hk.2], by linarith [hk.1, hk.2]⟩
          · have hk := key p hp
            have hk' := key p' hp'
            exact abs_le.mpr ⟨by linarith [hk.1, hk.2, hk'.1, hk'.2],
              by linarith [hk.1, hk.2, hk'.1, hk'.2]⟩
        · intro p hp p' hp'
          have hq1 := (processLoop_queue_sublist m now rest _).subset hp'
          exact foldl_removeFirst_not_mem _ q hnd p hp p' hq1
      · have hnd1 : (((a :: List.take (m - 1)
            (findCompatiblePlayers a rest (calculateMMRRange (now - a.queuedAt) : ℤ)
              (m - 1))).foldl (fun q p => removeFirstById q p.userId) q).map
            QueuedPlayer.userId).Nodup :=
          List.Nodup.sublist ((foldl_removeFirst_sublist _ q).map _) hnd
        exact ih _ hpwt hnd1 lob hmem
    · exact ih q hpwt hnd lob hlob

lemma sortByMMR_pairwise (ps : List QueuedPlayer) :
    List.Pairwise (fun a b => a.mmr ≤ b.mmr) (sortByMMR ps) := by
  have h := @List.sorted_mergeSort QueuedPlayer
    (fun a b : QueuedPlayer => decide (a.mmr ≤ b.mmr))
    (fun a b c hab hbc => by
      simp only [decide_eq_true_eq] at *
      exact le_trans hab hbc)
    (fun a b => by
      simp only [Bool.or_eq_true, decide_eq_true_eq]
      exact le_total a.mmr b.mmr)
    ps
  exact h.imp (fun hab => by simpa using hab)

/-- C4: every lobby a tick forms has exactly the mode's maximum player
count of members, all pairwise within the window the anchor was matched
under, and (when queue entries carry distinct userIds, as joinQueue
guarantees) none of its members is still in the mode's queue when the tick
finishes. -/
theorem c4_formed_lobby_invariants (mode : GameMode) (now : ℕ)
    (queue : List QueuedPlayer)
    (hids : (queue.map QueuedPlayer.userId).Nodup) :
    ∀ lob ∈ (tickMode mode now queue).2,
      lob.players.length = getMaxPlayersForMode mode ∧
      (∀ p ∈ lob.players, ∀ p' ∈ lob.players, |p.mmr - p'.mmr| ≤ (lob.window : ℤ)) ∧
      (∀ p ∈ lob.players, ∀ p' ∈ (tickMode mode now queue).1, p'.userId ≠ p.userId) := by
  unfold tickMode
  split_ifs with h
  · simp
  · unfold processQueue
    exact processLoop_lobby_spec (getMaxPlayersForMode mode) now
      (by cases mode <;> decide) (sortByMMR queue) queue
      (sortByMMR_pairwise queue) hids

/-- Witness for C4: a two-player 1v1 queue at tick time 0. -/
theorem c4_witness :
    ((wQueue.map QueuedPlayer.userId).Nodup) ∧
    ∀ lob ∈ (tickMode GameMode.m1v1 0 wQueue).2,
      lob.players.length = getMaxPlayersForMode GameMode.m1v1 ∧
      (∀ p ∈ lob.players, ∀ p' ∈ lob.players, |p.mmr - p'.mmr| ≤ (lob.window : ℤ)) ∧
      (∀ p ∈ lob.players, ∀ p' ∈ (tickMode GameMode.m1v1 0 wQueue).1, p'.userId ≠ p.userId) :=
  ⟨by decide, c4_formed_lobby_invariants GameMode.m1v1 0 wQueue (by decide)⟩

/-- C1 fails on the code: with four equally rated 1v1 players queued, one
tick forms the lobbies [A,B], [B,C], [C,D] — the sorted copy the loop
iterates is never updated when a match consumes players, so B (and C) are
re-scanned and placed into two lobbies formed in the same tick. -/
theorem c1_player_in_two_lobbies :
    ((tickMode GameMode.m1v1 0 c1Queue).2.map (fun lob => lob.players.map
      (fun p => p.userId))) = [["A", "B"], ["B", "C"], ["C", "D"]] ∧
    ((tickMode GameMode.m1v1 0 c1Queue).2.countP
      (fun lob => lob.players.any (fun p => p.userId == "B"))) = 2 := by
  have hs : sortByMMR c1Queue = c1Queue := List.mergeSort_of_sorted (by decide)
  have ht : tickMode GameMode.m1v1 0 c1Queue
      = processLoop 2 0 c1Queue c1Queue := by
    rw [show tickMode GameMode.m1v1 0 c1Queue
        = processLoop 2 0 (sortByMMR c1Queue) c1Queue from rfl, hs]
  rw [ht]
  constructor <;> decide

/-- C2 fails on the code: a player who joined the 1v1 queue alone at time 0
is still queued after a tick at 125000 ms (their wait exceeds
MAX_QUEUE_TIME), because `_tick` skips any queue shorter than the mode's
minimum before the eviction check can run; no lobby is formed either. -/
theorem c2_lone_player_not_evicted :
    (tickMode GameMode.m1v1 125000 [pLone]).1 = [pLone] ∧
    (tickMode GameMode.m1v1 125000 [pLone]).2 = [] ∧
    MAX_QUEUE_TIME < 125000 - pLone.queuedAt := by
  refine ⟨?_, ?_, ?_⟩ <;> decide

lemma lookup_eq_none_of_not_mem (k : String) :
    ∀ l : List (String × EngineLobby), k ∉ l.map Prod.fst →
      List.lookup k l = none := by
  intro l
  induction l with
  | nil => intro _; rfl
  | cons ab t ih =>
    intro h
    obtain ⟨a, b⟩ := ab
    have ha : a ≠ k := by
      intro hak
      exact h (by simp [hak])
    have hb : (k == a) = false := by simpa using Ne.symm ha
    simp only [List.lookup, hb]
    exact ih (fun hm => h (by simp [hm]))

lemma lookup_eraseP_self (k : String) :
    ∀ l : List (String × EngineLobby), (l.map Prod.fst).Nodup →
      List.lookup k (l.eraseP (fun kv => kv.1 == k)) = none := by
  intro l
  induction l with
  | nil => intro _; rfl
  | cons ab t ih =>
    intro hnd
    obtain ⟨a, b⟩ := ab
    have hnd1 : a ∉ t.map Prod.fst ∧ (t.map Prod.fst).Nodup := by
      rw [List.map_cons] at hnd
      exact List.nodup_cons.mp hnd
    by_cases hak : a = k
    · subst hak
      rw [show ((a, b) :: t).eraseP (fun kv => kv.1 == a) = t by
        simp [List.eraseP_cons_of_pos]]
      exact lookup_eq_none_of_not_mem a t hnd1.1
    · have hb : (a == k) = false := by simpa using hak
      have hbk : (k == a) = false := by simpa using Ne.symm hak
      rw [show ((a, b) :: t).eraseP (fun kv => kv.1 == k)
          = (a, b) :: t.eraseP (fun kv => kv.1 == k) by
        simp [List.eraseP_cons_of_neg, hb]]
      simp only [List.lookup, hbk]
      exact ih hnd1.2

/-- C3 counterexample: completing lobby L1 succeeds and removes it from the
active map, so a second completeMatch on L1 fails with the engine's only
error, 'Lobby not found' — not with a distinct AlreadyCompleted failure,
which the code never produces. -/
theorem c3_counterexample :
    completeMatch demoStore "L1" demoResults
      = Except.ok (computeMMRUpdates demoLobby1 demoResults, demoStore1) ∧
    completeMatch demoStore1 "L1" demoResults = Except.error "Lobby not found" := by
  constructor <;> rfl

/-- C3 (amended): completeMatch fails with LobbyNotFound whenever the id is
not in the active map — including every lobby already completed, since
completion removes the lobby from the active map; an active lobby is
accepted whatever its status, there being no status check and no separate
AlreadyCompleted error. -/
theorem c3_completeMatch_errors (st : LobbyStore) (lobbyId : String)
    (rs rs2 : List MatchResult) :
    (List.lookup lobbyId st.activeLobbies = none →
      completeMatch st lobbyId rs = Except.error "Lobby not found") ∧
    (∀ lobby, List.lookup lobbyId st.activeLobbies = some lobby →
      ∃ out, completeMatch st lobbyId rs = Except.ok out) ∧
    ((st.activeLobbies.map Prod.fst).Nodup →
      ∀ upds st1, completeMatch st lobbyId rs = Except.ok (upds, st1) →
        completeMatch st1 lobbyId rs2 = Except.error "Lobby not found") := by
  refine ⟨?_, ?_, ?_⟩
  · intro h
    simp [completeMatch, h]
  · intro lobby h
    have hval : completeMatch st lobbyId rs
        = Except.ok (computeMMRUpdates { lobby with status := LobbyStatus.completed } rs,
          { activeLobbies := st.activeLobbies.eraseP (fun kv => kv.1 == lobbyId)
            matchHistory := (lobbyId, { lobby with status := LobbyStatus.completed })
              :: st.matchHistory.eraseP (fun kv => kv.1 == lobbyId) }) := by
      simp [completeMatch, h]
    exact ⟨_, hval⟩
  · intro hnodup upds st1 hok
    unfold completeMatch at hok
    cases hlook : List.lookup lobbyId st.activeLobbies with
    | none => rw [hlook] at hok; simp at hok
    | some lobby =>
      rw [hlook] at hok
      simp only [Except.ok.injEq, Prod.mk.injEq] at hok
      obtain ⟨-, h2⟩ := hok
      subst h2
      have hnone : List.lookup lobbyId
          (st.activeLobbies.eraseP (fun kv => kv.1 == lobbyId)) = none :=
        lookup_eraseP_self lobbyId st.activeLobbies hnodup
      simp [completeMatch, hnone]

/-- Witness for C3: the error path on an empty store, the acceptance path
on a waiting lobby, and the second-completion path on L1. -/
theorem c3_witness :
    completeMatch { activeLobbies := [], matchHistory := [] } "L1" demoResults
      = Except.error "Lobby not found" ∧
    (∃ out, completeMatch demoStore "L1" demoResults = Except.ok out) ∧
    completeMatch demoStore1 "L1" [] = Except.error "Lobby not found" :=
  ⟨(c3_completeMatch_errors { activeLobbies := [], matchHistory := [] } "L1"
      demoResults demoResults).1 rfl,
   (c3_completeMatch_errors demoStore "L1" demoResults demoResults).2.1 demoLobby rfl,
   (c3_completeMatch_errors demoStore "L1" demoResults []).2.2 (by decide)
     (computeMMRUpdates demoLobby1 demoResults) demoStore1 rfl⟩

/-- C10: each MMRUpdate of completeMatch is computed from the lobby's
join-time snapshots and the member's own result entry alone, so the
updates are a filterMap over the results and permuting the results
permutes the updates (the same multiset of RatingUpdates). -/
theorem c10_updates_perm (lobby : EngineLobby) (rs1 rs2 : List MatchResult)
    (h : rs1.Perm rs2) :
    (computeMMRUpdates lobby rs1).Perm (computeMMRUpdates lobby rs2) ∧
    ∀ r rs, computeMMRUpdates lobby (r :: rs)
      = (memberUpdate lobby (sumMMR lobby.players) r).toList
        ++ computeMMRUpdates lobby rs := by
  refine ⟨List.Perm.filterMap _ h, ?_⟩
  intro r rs
  cases hr : memberUpdate lobby (sumMMR lobby.players) r <;>
    simp [computeMMRUpdates, List.filterMap_cons, hr]

/-- Witness for C10: reversing the two result entries of L1 permutes the
produced updates. -/
theorem c10_witness :
    (computeMMRUpdates demoLobby demoResults).Perm
      (computeMMRUpdates demoLobby demoResults.reverse) :=
  (c10_updates_perm demoLobby demoResults demoResults.reverse
    (List.reverse_perm demoResults).symm).1
